import Mathlib

/-!
Verification of the Strava kudos bot (src/bot.py, src/browser_manager.py)
against its natural-language specification.

The Python code is shallowly embedded: the behavioural methods of
CustomPage become pure Lean functions over explicit page / filesystem /
network state, emitting a trace of observable events (scroll expansions,
kudos clicks, network fetches, file writes, log lines).  Python string
operations and the used parts of urllib.parse / pathlib are modelled by
structurally recursive functions over List Char so that all definitions
are kernel-computable.
-/

namespace StravaBot

/-! ## Character-list string primitives (models of Python str operations) -/

/-- Model of Python str.split(sep) for a single-character separator:
splits the character list at every occurrence of c, keeping empty parts.
The result is always non-empty. -/
def splitOnChar (c : Char) : List Char → List (List Char)
  | [] => [[]]
  | x :: xs =>
      let rest := splitOnChar c xs
      if x = c then [] :: rest
      else
        match rest with
        | [] => [[x]]
        | r :: rs => (x :: r) :: rs

/-- leadsWith needle hay: needle is an initial segment of hay. -/
def leadsWith : List Char → List Char → Bool
  | [], _ => true
  | _ :: _, [] => false
  | x :: xs, y :: ys => x = y && leadsWith xs ys

/-- occursIn needle hay: needle occurs contiguously inside hay.
Model of the Python substring test needle in hay (true for the empty needle,
as in Python). -/
def occursIn (needle : List Char) : List Char → Bool
  | [] => needle.isEmpty
  | y :: ys => leadsWith needle (y :: ys) || occursIn needle ys

/-- Model of Python str.lower (sufficient for the ASCII names involved). -/
def pyLower (s : String) : String := ⟨s.data.map Char.toLower⟩

/-- Model of the Python substring test a in b on strings. -/
def pyIn (needle hay : String) : Bool := occursIn needle.data hay.data

/-- The characters of a list before the first occurrence of c, the whole
list when c does not occur. -/
def takeUntilChar (c : Char) : List Char → List Char
  | [] => []
  | x :: xs => if x = c then [] else x :: takeUntilChar c xs

/-! ## Models of urllib.parse.urlparse(...).path and pathlib stem -/

/-- Is c a character allowed in a URL scheme name (letter, digit, plus,
minus or dot), as in the scheme_chars of urllib.parse? -/
def isSchemeChar (c : Char) : Bool :=
  ('a' ≤ c && c ≤ 'z') || ('A' ≤ c && c ≤ 'Z') ||
    ('0' ≤ c && c ≤ '9') || c = '+' || c = '-' || c = '.'

/-- The scheme of a URL as urllib.parse recognises it: the text before
the first colon when it is non-empty, starts with an ASCII letter and
consists of scheme characters only; returned lowercased, none when the
URL has no scheme. -/
def urlScheme (cs : List Char) : Option (List Char) :=
  let before := takeUntilChar ':' cs
  if before.length = cs.length then none
  else
    match before with
    | [] => none
    | c0 :: _ =>
        if (('a' ≤ c0 && c0 ≤ 'z') || ('A' ≤ c0 && c0 ≤ 'Z')) &&
            before.all isSchemeChar then
          some (before.map Char.toLower)
        else none

/-- The uses_params list of urllib.parse: the schemes for which urlparse
separates a params component from the last path segment. -/
def usesParams : List (List Char) :=
  ["".data, "ftp".data, "hdl".data, "prospero".data, "http".data,
   "imap".data, "https".data, "shttp".data, "rtsp".data, "rtspu".data,
   "sip".data, "sips".data, "mms".data, "sftp".data, "tel".data]

/-- The params split of urllib.parse.urlparse: everything from the first
semicolon of the last path segment onward is the params component and is
removed from the path; semicolons in earlier segments are kept. -/
def dropParams (path : List Char) : List Char :=
  let segs := splitOnChar '/' path
  List.intercalate ['/']
    (segs.dropLast ++ [takeUntilChar ';' (segs.getLastD [])])

/-- Model of urllib.parse.urlparse(url).path on character lists,
following the steps of urlsplit and urlparse: remove the scheme (text
before the first colon, when it is a valid scheme name); when the
remainder starts with a double slash, drop the authority up to the next
slash, question mark or hash; remove the fragment (after the first hash)
and the query (after the first question mark); finally, when the scheme
is in uses_params (no scheme, http, https, ...), split off the params
component at the first semicolon of the last segment. -/
def urlPathChars (cs : List Char) : List Char :=
  let scheme := urlScheme cs
  let afterScheme :=
    match scheme with
    | none => cs
    | some _ => cs.drop ((takeUntilChar ':' cs).length + 1)
  let afterNetloc :=
    match afterScheme with
    | '/' :: '/' :: rest =>
        rest.dropWhile (fun c => c ≠ '/' && c ≠ '?' && c ≠ '#')
    | _ => afterScheme
  let noFrag := (splitOnChar '#' afterNetloc).headD []
  let noQuery := (splitOnChar '?' noFrag).headD []
  let stripParams :=
    match scheme with
    | none => true
    | some sch => usesParams.contains sch
  if stripParams then dropParams noQuery else noQuery

/-- Model of the stem of a file name in pathlib: the name without its
suffix, where a suffix starts at the last dot only when that dot is
neither the first nor the last character of the name — so a name with
only a leading dot or with a trailing dot is its own stem. -/
def stemOfName (name : List Char) : List Char :=
  let parts := splitOnChar '.' name
  match parts with
  | [] => name
  | [_] => name
  | p :: ps =>
      if (p :: ps).getLastD [] = [] then name
      else if p = [] ∧ ps.length = 1 then name
      else List.intercalate ['.'] (p :: ps).dropLast

/-- Model of pathlib.Path(p).stem: empty segments and single-dot
segments of the path are normalised away as pathlib does, the name is
the last remaining segment, and the stem is the name without its
suffix. -/
def pathStem (p : String) : String :=
  let segs := (splitOnChar '/' p.data).filter
    (fun s => !s.isEmpty && s ≠ ['.'])
  ⟨stemOfName (segs.getLastD [])⟩

/-! ## Data model -/

/-- Observable events of a run: one feed expansion (one call of
scroll_to_bottom_of_page), the start of one give_kudos scan pass (the
initial feed-entries-count log line), a network GET, a file write, a click
on a kudos button (tagged with the feed-entry index, the button index
within the entry, and the owner name the code resolved for it), a click on
the cookie-consent button, and an informational log line. -/
inductive Event where
  | expand : Event
  | scanStart : Event
  | fetch (url : String) : Event
  | fileWrite (path : String) : Event
  | click (entry ctrl : Nat) (owner : String) : Event
  | clickConsent : Event
  | logInfo (msg : String) : Event
  deriving DecidableEq, Repr

/-- A response to page.request.get(src): ok status, the optional
content-type header, and the body bytes. -/
structure Response where
  ok : Bool
  contentType : Option String
  body : List Nat
  deriving DecidableEq, Repr

/-- The network: each URL yields a response. -/
def Network : Type := String → Response

/-- The filesystem: an association list from paths to byte contents. -/
def FS : Type := List (String × List Nat)

instance : DecidableEq FS := by unfold FS; infer_instance

/-- Bytes stored at a path, if the file exists. -/
def fsLookup (fs : FS) (p : String) : Option (List Nat) :=
  (fs.find? (fun q => q.1 = p)).map (·.2)

/-- Python target_path.exists() and target_path.stat().st_size > 0. -/
def fsExistsNonEmpty (fs : FS) (p : String) : Bool :=
  match fsLookup fs p with
  | some b => !b.isEmpty
  | none => false

/-- Python target_path.write_bytes(b): creates or overwrites the file. -/
def fsWrite (fs : FS) (p : String) (b : List Nat) : FS :=
  (p, b) :: fs.eraseP (fun q => q.1 = p)

/-- One img[data-testid=map] element: its src attribute
(none models a missing attribute). -/
structure MapImage where
  src : Option String
  deriving DecidableEq, Repr

/-- One button[data-testid=kudos_button]: whether the
svg[data-testid=unfilled_kudos] marker sub-element is present (not yet
acted), and the owner name read from its nearest ancestor list item
containing an entry header (used when the entry has several buttons). -/
structure KudosButton where
  unfilled : Bool
  ancestorOwner : String
  deriving DecidableEq, Repr

/-- One div[data-testid=web-feed-entry]: the entry-level
a[data-testid=owners-name] text, the kudos buttons, and the
img[data-testid=map] elements it contains. -/
structure FeedEntry where
  primaryOwner : String
  buttons : List KudosButton
  mapImgs : List MapImage
  deriving DecidableEq, Repr

/-- Python truthiness of the optional save_map_path argument:
None and the empty string are falsy. -/
def pyTruthyPath : Option String → Bool
  | none => false
  | some s => !s.isEmpty

/-! ## Asset archiver: save_activity_map -/

/-- content_type.split("/")[-1].split(";")[0] from save_activity_map. -/
def extensionOf (content_type : String) : String :=
  ⟨((splitOnChar '/' content_type.data).getLastD []
      |> splitOnChar ';').headD []⟩

/-- url_path.stem if url_path.stem else "map" from save_activity_map. -/
def filenameOf (src : String) : String :=
  let st := pathStem ⟨urlPathChars src.data⟩
  if st.isEmpty then "map" else st

/-- The composed target path data_dir / (filename.extension). -/
def targetPathOf (dir src content_type : String) : String :=
  dir ++ "/" ++ filenameOf src ++ "." ++ extensionOf content_type

/-- Embedding of CustomPage.save_activity_map: guard on a falsy
save_map_path, require exactly one map image, require a truthy src
attribute, GET the src, require an ok response, derive extension and stem,
and write the body unless a non-empty file already exists at the target
path.  Returns the updated filesystem and the emitted event trace. -/
def save_activity_map (net : Network) (fs : FS) (feed_entry : FeedEntry)
    (save_map_path : Option String) : FS × List Event :=
  if !pyTruthyPath save_map_path then (fs, [])
  else
    let dir := save_map_path.getD ""
    if feed_entry.mapImgs.length ≠ 1 then (fs, [])
    else
      match (feed_entry.mapImgs.headD ⟨none⟩).src with
      | none => (fs, [])
      | some src =>
          if src.isEmpty then (fs, [])
          else
            let resp := net src
            if !resp.ok then (fs, [Event.fetch src])
            else
              let content_type := resp.contentType.getD "image/png"
              let target_path := targetPathOf dir src content_type
              if fsExistsNonEmpty fs target_path then
                (fs, [Event.fetch src,
                      Event.logInfo ("Map: already exists " ++ target_path)])
              else
                (fsWrite fs target_path resp.body,
                 [Event.fetch src, Event.fileWrite target_path,
                  Event.logInfo ("Map: saved " ++ target_path)])

/-! ## Scan-and-act pass: give_kudos -/

/-- Owner-name resolution inside the give_kudos button loop: with exactly
one kudos button the entry-level a[data-testid=owners-name] text is used;
with two or more buttons the name comes from that button through its nearest ancestor
list item containing an entry header. -/
def resolveOwner (feed_entry : FeedEntry) (count : Nat) (btn : KudosButton) : String :=
  if count = 1 then feed_entry.primaryOwner else btn.ancestorOwner

/-- The skip condition of give_kudos:
athletes_to_skip and any(athlete.lower() in owner_name.lower() ...). -/
def skipMatch (athletes_to_skip : List String) (owner : String) : Bool :=
  !athletes_to_skip.isEmpty &&
    athletes_to_skip.any (fun athlete => pyIn (pyLower athlete) (pyLower owner))

/-- Body of the inner button loop of give_kudos for the button at position
j of feed entry i: log the owner, skip when the unfilled marker is absent
(already clicked), skip when the owner matches the skip set, otherwise
click. -/
def processButton (athletes_to_skip : List String) (owner : String)
    (btn : KudosButton) (i j : Nat) : List Event :=
  Event.logInfo ("Owner: " ++ owner) ::
    (if !btn.unfilled then [Event.logInfo "-> Already clicked."]
     else if skipMatch athletes_to_skip owner then [Event.logInfo "-> Skipping."]
     else [Event.click i j owner])

/-- The inner loop of give_kudos over the buttons of feed entry i,
starting at button index j; count is the total button count of the entry
(computed once, before the loop). -/
def processButtons (athletes_to_skip : List String) (feed_entry : FeedEntry)
    (count i : Nat) : Nat → List KudosButton → List Event
  | _, [] => []
  | j, btn :: rest =>
      processButton athletes_to_skip (resolveOwner feed_entry count btn) btn i j ++
        processButtons athletes_to_skip feed_entry count i (j + 1) rest

/-- Body of the outer entry loop of give_kudos for feed entry i: archive
the activity map when save_map_path is truthy, then process every kudos
button of the entry. -/
def processEntry (net : Network) (athletes_to_skip : List String)
    (save_map_path : Option String) (fs : FS) (i : Nat)
    (feed_entry : FeedEntry) : FS × List Event :=
  let archived :=
    if pyTruthyPath save_map_path then
      save_activity_map net fs feed_entry save_map_path
    else (fs, [])
  (archived.1,
   archived.2 ++
     processButtons athletes_to_skip feed_entry feed_entry.buttons.length i
       0 feed_entry.buttons)

/-- The outer loop of give_kudos over the feed entries, starting at entry
index i, threading the filesystem through the per-entry archive step. -/
def giveKudosGo (net : Network) (athletes_to_skip : List String)
    (save_map_path : Option String) : Nat → FS → List FeedEntry → FS × List Event
  | _, fs, [] => (fs, [])
  | i, fs, e :: es =>
      let step := processEntry net athletes_to_skip save_map_path fs i e
      let rest := giveKudosGo net athletes_to_skip save_map_path (i + 1) step.1 es
      (rest.1, step.2 ++ rest.2)

/-- Embedding of CustomPage.give_kudos: one scan-and-act pass over all
feed entries currently in the DOM, in order.  The scanStart event models
the initial feed-entries-count log line. -/
def give_kudos (net : Network) (fs : FS) (entries : List FeedEntry)
    (athletes_to_skip : List String) (save_map_path : Option String) :
    FS × List Event :=
  let r := giveKudosGo net athletes_to_skip save_map_path 0 fs entries
  (r.1, Event.scanStart :: r.2)

/-! ## Feed harvest loop: execute_kudos_giving -/

/-- Embedding of CustomPage.scroll_to_bottom_of_page: scroll to the
bottom, settle, scroll back up slightly, settle again — one expansion. -/
def scroll_to_bottom_of_page : List Event := [Event.expand]

/-- The scroll loop of execute_kudos_giving: n expansion invocations. -/
def scrollPhase : Nat → List Event
  | 0 => []
  | n + 1 => scroll_to_bottom_of_page ++ scrollPhase n

/-- Embedding of CustomPage.execute_kudos_giving (the uncancelled run):
number_of_scrolls_to_end expansions, then exactly one give_kudos pass. -/
def execute_kudos_giving (net : Network) (fs : FS) (entries : List FeedEntry)
    (number_of_scrolls_to_end : Nat) (athletes_to_skip : List String)
    (save_map_path : Option String) : FS × List Event :=
  let r := give_kudos net fs entries athletes_to_skip save_map_path
  (r.1, scrollPhase number_of_scrolls_to_end ++ r.2)

/-- Outcome of a possibly-cancelled run. -/
inductive Outcome where
  | completed : Outcome
  | cancelled : Outcome
  deriving DecidableEq, Repr

/-- Cancellation semantics of the try/except asyncio.CancelledError block
in execute_kudos_giving: every event of the body is separated by an await
(a suspension point); if cancellation is delivered before the k-th event,
the first k events have happened, the except branch logs, and the
exception is re-raised (outcome cancelled).  A cancellation index past the
end of the body means no cancellation was delivered during the loop. -/
def runCancellable (body : List Event) (cancelAt : Option Nat) :
    List Event × Outcome :=
  match cancelAt with
  | none => (body, Outcome.completed)
  | some k =>
      if k < body.length then
        (body.take k ++ [Event.logInfo "execute_kudos_giving cancelled, cleaning up"],
         Outcome.cancelled)
      else (body, Outcome.completed)

/-- execute_kudos_giving with an explicit cancellation point. -/
def execute_kudos_giving_cancellable (net : Network) (fs : FS)
    (entries : List FeedEntry) (number_of_scrolls_to_end : Nat)
    (athletes_to_skip : List String) (save_map_path : Option String)
    (cancelAt : Option Nat) : List Event × Outcome :=
  runCancellable
    (execute_kudos_giving net fs entries number_of_scrolls_to_end
        athletes_to_skip save_map_path).2
    cancelAt

/-! ## Consent flow: accept_cookies -/

/-- Page state relevant to the cookie-consent dialog: whether the dialog
appears within the 3000 ms wait_for_selector timeout, whether the
allow-all button is found inside it, and whether clicking it raises. -/
structure ConsentState where
  bannerAppears : Bool
  acceptBtnFound : Bool
  clickRaises : Bool
  deriving DecidableEq, Repr

/-- The try-block body of accept_cookies: wait_for_selector raises on
timeout; a missing accept button raises the explicit exception from the
source; the click itself may raise.  Errors are modelled as Except. -/
def accept_cookies_body (s : ConsentState) : Except String (List Event) :=
  if !s.bannerAppears then Except.error "TimeoutError"
  else if !s.acceptBtnFound then
    Except.error "Cookie banner found but accept button not found."
  else if s.clickRaises then Except.error "ClickError"
  else Except.ok [Event.clickConsent]

/-- Embedding of CustomPage.accept_cookies: the whole body runs under
try/except Exception, and every exception is replaced by an informational
log line; the method itself never errors. -/
def accept_cookies (s : ConsentState) : Except String (List Event) :=
  match accept_cookies_body s with
  | Except.ok evs => Except.ok evs
  | Except.error e => Except.ok [Event.logInfo ("No cookie banner found. " ++ e)]

/-! ## Entry point: main and Python keyword binding -/

/-- The keyword parameters accepted by CustomPage.execute_kudos_giving
(self excluded). -/
def executeKudosGivingParams : List String :=
  ["number_of_scrolls_to_end", "athletes_to_skip", "save_map_path"]

/-- The keyword arguments main passes to execute_kudos_giving. -/
def mainCallKwargs : List String :=
  ["number_of_scrolls_to_end", "interval", "athletes_to_skip"]

/-- Python keyword binding: calling a function with a keyword argument its
signature does not accept raises TypeError before the body runs. -/
def bindKwargs (params kwargs : List String) : Except String Unit :=
  match kwargs.find? (fun k => !params.contains k) with
  | some k => Except.error ("TypeError: unexpected keyword argument " ++ k)
  | none => Except.ok ()

/-- The configuration main reads from environment variables. -/
structure Config where
  number_of_scrolls : Nat
  interval_seconds : Nat
  athletes_to_skip : List String
  deriving DecidableEq, Repr

/-- Embedding of the kudos phase of bot.main: the call of
execute_kudos_giving with keywords number_of_scrolls_to_end, interval and
athletes_to_skip first binds its keywords against the callee signature;
only on success would the body run and emit events.  (The preceding goto /
accept_cookies / do_login steps emit no expansion and no kudos click, so
they are omitted from the trace.) -/
def main_run (cfg : Config) (net : Network) (fs : FS)
    (entries : List FeedEntry) : List Event × Except String Unit :=
  match bindKwargs executeKudosGivingParams mainCallKwargs with
  | Except.error e => ([], Except.error e)
  | Except.ok _ =>
      ((execute_kudos_giving net fs entries cfg.number_of_scrolls
          cfg.athletes_to_skip none).2,
       Except.ok ())

/-! ## Event classifiers and concrete demo inputs -/

/-- Is the event a kudos click? -/
def isClick : Event → Bool
  | Event.click _ _ _ => true
  | _ => false

/-- Is the event a network fetch? -/
def isFetch : Event → Bool
  | Event.fetch _ => true
  | _ => false

/-- Is the event a file write? -/
def isFileWrite : Event → Bool
  | Event.fileWrite _ => true
  | _ => false

/-- A network where every request succeeds with a png body. -/
def demoNet : Network := fun _ => ⟨true, some "image/png", [7]⟩

/-- A network that is never consulted in the scenarios that use it. -/
def net0 : Network := fun _ => ⟨false, none, []⟩

/-- The source URL of the demo activity map. -/
def mapSrc : String := "https://example.com/maps/xyz123.png"

/-- A feed entry with no kudos buttons and one map image. -/
def demoEntry : FeedEntry := ⟨"Jane Doe", [], [⟨some mapSrc⟩]⟩

/-- A group feed entry with two kudos buttons attributed to different
owners through their ancestor list items; bobMarker is the marker state of
the second button. -/
def groupEntry (bobMarker : Bool) : FeedEntry :=
  ⟨"Group Activity", [⟨true, "Alice Smith"⟩, ⟨bobMarker, "Bob Jones"⟩], []⟩

/-! ## Lemmas about the string primitives -/

theorem splitOnChar_ne_nil (c : Char) (l : List Char) : splitOnChar c l ≠ [] := by
  induction l with
  | nil => simp [splitOnChar]
  | cons x xs ih =>
      simp only [splitOnChar]
      by_cases h : x = c
      · simp [h]
      · simp only [if_neg h]
        split <;> simp

theorem splitOnChar_of_not_mem {c : Char} {l : List Char} (h : c ∉ l) :
    splitOnChar c l = [l] := by
  induction l with
  | nil => rfl
  | cons x xs ih =>
      have hx : x ≠ c := fun he => h (he ▸ List.mem_cons_self x xs)
      have hxs : c ∉ xs := fun hm => h (List.mem_cons_of_mem x hm)
      simp only [splitOnChar, if_neg hx, ih hxs]

theorem splitOnChar_append_cons {c : Char} {a : List Char} (b : List Char)
    (ha : c ∉ a) : splitOnChar c (a ++ c :: b) = a :: splitOnChar c b := by
  induction a with
  | nil => simp [splitOnChar]
  | cons x a' ih =>
      have hx : x ≠ c := fun he => ha (he ▸ List.mem_cons_self x a')
      have ha' : c ∉ a' := fun hm => ha (List.mem_cons_of_mem x hm)
      simp only [List.cons_append, splitOnChar, if_neg hx]
      rw [show List.append a' (c :: b) = a' ++ c :: b from rfl, ih ha']

theorem headD_splitOnChar (c : Char) (l : List Char) :
    (splitOnChar c l).headD [] = takeUntilChar c l := by
  induction l with
  | nil => rfl
  | cons x xs ih =>
      simp only [splitOnChar, takeUntilChar]
      by_cases h : x = c
      · simp [h]
      · simp only [if_neg h]
        cases hsp : splitOnChar c xs with
        | nil => exact absurd hsp (splitOnChar_ne_nil c xs)
        | cons r rs =>
            rw [hsp] at ih
            simpa using ih

/-! ## Characterisation of the clicks performed by give_kudos -/

theorem click_processButton {skip : List String} {owner : String}
    {btn : KudosButton} {i j a b : Nat} {o : String} :
    Event.click a b o ∈ processButton skip owner btn i j ↔
      a = i ∧ b = j ∧ o = owner ∧ btn.unfilled = true ∧
        skipMatch skip owner = false := by
  cases hu : btn.unfilled <;>
    by_cases hs : skipMatch skip owner = true <;>
      simp_all [processButton]

theorem click_processButtons {skip : List String} {e : FeedEntry}
    {count i a b : Nat} {o : String} : ∀ (bs : List KudosButton) (j : Nat),
    Event.click a b o ∈ processButtons skip e count i j bs ↔
      a = i ∧ ∃ k btn, bs[k]? = some btn ∧ b = j + k ∧
        o = resolveOwner e count btn ∧ btn.unfilled = true ∧
        skipMatch skip o = false := by
  intro bs
  induction bs with
  | nil => intro j; simp [processButtons]
  | cons btn rest ih =>
      intro j
      simp only [processButtons, List.mem_append, click_processButton, ih (j + 1)]
      constructor
      · rintro (⟨ha, hb, ho, hu, hs⟩ | ⟨ha, k, btn', hget, hb, ho, hu, hs⟩)
        · exact ⟨ha, 0, btn, by simp, by omega, ho, hu, by rw [ho]; exact hs⟩
        · exact ⟨ha, k + 1, btn', by simpa using hget, by omega, ho, hu, hs⟩
      · rintro ⟨ha, k, btn', hget, hb, ho, hu, hs⟩
        cases k with
        | zero =>
            have : btn' = btn := by simpa [eq_comm] using hget
            subst this
            exact Or.inl ⟨ha, by omega, ho, hu, by rw [← ho]; exact hs⟩
        | succ k' =>
            exact Or.inr ⟨ha, k', btn', by simpa using hget, by omega, ho, hu, hs⟩

theorem no_click_save {net : Network} {fs : FS} {e : FeedEntry}
    {smp : Option String} {a b : Nat} {o : String} :
    Event.click a b o ∉ (save_activity_map net fs e smp).2 := by
  intro h
  unfold save_activity_map at h
  repeat'
    first
    | split at h
    | simp only [List.mem_cons, List.mem_singleton, List.not_mem_nil] at h
  all_goals simp_all

theorem click_processEntry {net : Network} {skip : List String}
    {smp : Option String} {fs : FS} {i a b : Nat} {e : FeedEntry} {o : String} :
    Event.click a b o ∈ (processEntry net skip smp fs i e).2 ↔
      a = i ∧ ∃ btn, e.buttons[b]? = some btn ∧
        o = resolveOwner e e.buttons.length btn ∧ btn.unfilled = true ∧
        skipMatch skip o = false := by
  unfold processEntry
  simp only [List.mem_append]
  constructor
  · rintro (h | h)
    · by_cases hp : pyTruthyPath smp = true
      · rw [if_pos hp] at h
        exact absurd h no_click_save
      · rw [if_neg hp] at h
        simp at h
    · rw [click_processButtons e.buttons 0] at h
      rcases h with ⟨ha, k, btn, hget, hb, ho, hu, hs⟩
      exact ⟨ha, btn, by rwa [show b = k by omega], ho, hu, hs⟩
  · rintro ⟨ha, btn, hget, ho, hu, hs⟩
    refine Or.inr ?_
    rw [click_processButtons e.buttons 0]
    exact ⟨ha, b, btn, hget, by omega, ho, hu, hs⟩

theorem click_giveKudosGo {net : Network} {skip : List String}
    {smp : Option String} {a b : Nat} {o : String} :
    ∀ (es : List FeedEntry) (start : Nat) (fs : FS),
    Event.click a b o ∈ (giveKudosGo net skip smp start fs es).2 ↔
      ∃ m e btn, es[m]? = some e ∧ a = start + m ∧
        e.buttons[b]? = some btn ∧
        o = resolveOwner e e.buttons.length btn ∧ btn.unfilled = true ∧
        skipMatch skip o = false := by
  intro es
  induction es with
  | nil => intro start fs; simp [giveKudosGo]
  | cons e es ih =>
      intro start fs
      simp only [giveKudosGo, List.mem_append]
      rw [click_processEntry, ih (start + 1)]
      constructor
      · rintro (⟨ha, btn, hget, ho, hu, hs⟩ | ⟨m, e', btn, hm, ha, hget, ho, hu, hs⟩)
        · exact ⟨0, e, btn, by simp, by omega, hget, ho, hu, hs⟩
        · exact ⟨m + 1, e', btn, by simpa using hm, by omega, hget, ho, hu, hs⟩
      · rintro ⟨m, e', btn, hm, ha, hget, ho, hu, hs⟩
        cases m with
        | zero =>
            have : e' = e := by simpa [eq_comm] using hm
            subst this
            exact Or.inl ⟨by omega, btn, hget, ho, hu, hs⟩
        | succ m' =>
            exact Or.inr ⟨m', e', btn, by simpa using hm, by omega, hget, ho, hu, hs⟩

theorem click_give_kudos {net : Network} {fs : FS} {entries : List FeedEntry}
    {skip : List String} {smp : Option String} {a b : Nat} {o : String} :
    Event.click a b o ∈ (give_kudos net fs entries skip smp).2 ↔
      ∃ e btn, entries[a]? = some e ∧ e.buttons[b]? = some btn ∧
        o = resolveOwner e e.buttons.length btn ∧ btn.unfilled = true ∧
        skipMatch skip o = false := by
  unfold give_kudos
  simp only [List.mem_cons]
  rw [click_giveKudosGo entries 0]
  constructor
  · rintro (h | ⟨m, e, btn, hm, ha, hget, ho, hu, hs⟩)
    · exact absurd h (by simp)
    · exact ⟨e, btn, by rwa [show a = m by omega], hget, ho, hu, hs⟩
  · rintro ⟨e, btn, hm, hget, ho, hu, hs⟩
    exact Or.inr ⟨a, e, btn, hm, by omega, hget, ho, hu, hs⟩

/-! ## Shape of the events inside a scan pass -/

theorem inner_save {net : Network} {fs : FS} {e : FeedEntry}
    {smp : Option String} {ev : Event}
    (h : ev ∈ (save_activity_map net fs e smp).2) :
    ev ≠ Event.expand ∧ ev ≠ Event.scanStart := by
  unfold save_activity_map at h
  repeat'
    first
    | split at h
    | simp only [List.mem_cons, List.mem_singleton, List.not_mem_nil, or_false] at h
  all_goals
    first
    | (rcases h with rfl | rfl <;> simp)
    | (rcases h with rfl | rfl | rfl <;> simp)

theorem inner_processButton {skip : List String} {owner : String}
    {btn : KudosButton} {i j : Nat} {ev : Event}
    (h : ev ∈ processButton skip owner btn i j) :
    ev ≠ Event.expand ∧ ev ≠ Event.scanStart := by
  unfold processButton at h
  simp only [List.mem_cons] at h
  rcases h with rfl | h
  · simp
  · repeat' split at h
    all_goals simp_all

theorem inner_processButtons {skip : List String} {e : FeedEntry}
    {count i : Nat} {ev : Event} :
    ∀ (bs : List KudosButton) (j : Nat),
    ev ∈ processButtons skip e count i j bs →
    ev ≠ Event.expand ∧ ev ≠ Event.scanStart := by
  intro bs
  induction bs with
  | nil => intro j h; simp [processButtons] at h
  | cons btn rest ih =>
      intro j h
      simp only [processButtons, List.mem_append] at h
      rcases h with h | h
      · exact inner_processButton h
      · exact ih (j + 1) h

theorem inner_giveKudosGo {net : Network} {skip : List String}
    {smp : Option String} {ev : Event} :
    ∀ (es : List FeedEntry) (start : Nat) (fs : FS),
    ev ∈ (giveKudosGo net skip smp start fs es).2 →
    ev ≠ Event.expand ∧ ev ≠ Event.scanStart := by
  intro es
  induction es with
  | nil => intro start fs h; simp [giveKudosGo] at h
  | cons e es ih =>
      intro start fs h
      simp only [giveKudosGo, List.mem_append] at h
      rcases h with h | h
      · simp only [processEntry, List.mem_append] at h
        rcases h with h | h
        · split at h
          · exact inner_save h
          · simp at h
        · exact inner_processButtons e.buttons 0 h
      · exact ih (start + 1) _ h

theorem scrollPhase_length (n : Nat) : (scrollPhase n).length = n := by
  induction n with
  | zero => rfl
  | succ n ih => simp [scrollPhase, scroll_to_bottom_of_page, ih]

theorem mem_scrollPhase {ev : Event} : ∀ n, ev ∈ scrollPhase n → ev = Event.expand := by
  intro n
  induction n with
  | zero => intro h; simp [scrollPhase] at h
  | succ n ih =>
      intro h
      simp only [scrollPhase, scroll_to_bottom_of_page, List.cons_append,
        List.nil_append, List.mem_cons] at h
      rcases h with rfl | h
      · rfl
      · exact ih h

theorem scrollPhase_count_expand (n : Nat) :
    (scrollPhase n).count Event.expand = n := by
  induction n with
  | zero => rfl
  | succ n ih =>
      simp [scrollPhase, scroll_to_bottom_of_page, List.count_cons, ih]

/-! ## Lifting events of one button into the whole pass -/

theorem mem_processButtons_of_get {skip : List String} {e : FeedEntry}
    {count i : Nat} {ev : Event} :
    ∀ (bs : List KudosButton) (j k : Nat) (btn : KudosButton),
    bs[k]? = some btn →
    ev ∈ processButton skip (resolveOwner e count btn) btn i (j + k) →
    ev ∈ processButtons skip e count i j bs := by
  intro bs
  induction bs with
  | nil => intro j k btn hget; simp at hget
  | cons b rest ih =>
      intro j k btn hget hev
      simp only [processButtons, List.mem_append]
      cases k with
      | zero =>
          have hb : b = btn := by simpa using hget
          subst hb
          exact Or.inl (by simpa using hev)
      | succ k' =>
          refine Or.inr (ih (j + 1) k' btn (by simpa using hget) ?_)
          have : j + (k' + 1) = j + 1 + k' := by omega
          rwa [this] at hev

theorem mem_giveKudosGo_of_entry {net : Network} {skip : List String}
    {smp : Option String} {ev : Event} :
    ∀ (es : List FeedEntry) (start : Nat) (fs : FS) (m : Nat) (e : FeedEntry),
    es[m]? = some e →
    ev ∈ processButtons skip e e.buttons.length (start + m) 0 e.buttons →
    ev ∈ (giveKudosGo net skip smp start fs es).2 := by
  intro es
  induction es with
  | nil => intro start fs m e hget; simp at hget
  | cons e' es ih =>
      intro start fs m e hget hev
      simp only [giveKudosGo, List.mem_append]
      cases m with
      | zero =>
          have he : e' = e := by simpa using hget
          subst he
          refine Or.inl ?_
          simp only [processEntry, List.mem_append]
          exact Or.inr (by simpa using hev)
      | succ m' =>
          refine Or.inr (ih (start + 1) _ m' e (by simpa using hget) ?_)
          have : start + (m' + 1) = start + 1 + m' := by omega
          rwa [this] at hev

/-! ## Claim theorems -/

/-- Claim C3: for every feed entry and every skip set, if the
already-acted marker of a kudos button is present (its unfilled sub-element is absent,
unfilled = false), the give_kudos scan-and-act pass performs zero clicks
on that button, regardless of the skip-set contents, and the skip is
logged (the pass emits the already-clicked log line, it is not an
error). -/
theorem c3_marker_present_zero_clicks (net : Network) (fs : FS)
    (entries : List FeedEntry) (skip : List String) (smp : Option String)
    (i j : Nat) (e : FeedEntry) (btn : KudosButton)
    (hi : entries[i]? = some e) (hj : e.buttons[j]? = some btn)
    (hm : btn.unfilled = false) :
    (∀ o, Event.click i j o ∉ (give_kudos net fs entries skip smp).2) ∧
    Event.logInfo "-> Already clicked." ∈ (give_kudos net fs entries skip smp).2 := by
  constructor
  · intro o hc
    rw [click_give_kudos] at hc
    rcases hc with ⟨e', btn', hi', hj', _, hu, _⟩
    have he : e' = e := by rw [hi] at hi'; exact (Option.some.inj hi').symm
    have hb : btn' = btn := by
      rw [he, hj] at hj'; exact (Option.some.inj hj').symm
    rw [hb, hm] at hu
    exact absurd hu (by simp)
  · unfold give_kudos
    refine List.mem_cons_of_mem _ ?_
    refine mem_giveKudosGo_of_entry entries 0 fs i e hi ?_
    refine mem_processButtons_of_get e.buttons 0 j btn hj ?_
    unfold processButton
    simp [hm]

/-- Witness for claim C3: in a one-entry feed whose single button is already acted,
no click on that button occurs and the skip is logged. -/
theorem c3_witness :
    (∀ o, Event.click 0 0 o ∉
      (give_kudos net0 [] [⟨"Jane Doe", [⟨false, "Jane Doe"⟩], []⟩] [] none).2) ∧
    Event.logInfo "-> Already clicked." ∈
      (give_kudos net0 [] [⟨"Jane Doe", [⟨false, "Jane Doe"⟩], []⟩] [] none).2 :=
  c3_marker_present_zero_clicks net0 [] [⟨"Jane Doe", [⟨false, "Jane Doe"⟩], []⟩]
    [] none 0 0 ⟨"Jane Doe", [⟨false, "Jane Doe"⟩], []⟩ ⟨false, "Jane Doe"⟩
    (by decide) (by decide) (by decide)

/-- Claim C4: for every owner name and non-empty skip set, if some pattern of
the skip set is a case-insensitive substring of the owner name that the
pass resolves for a kudos button, that button is never clicked, even when
its marker indicates not-yet-acted. -/
theorem c4_skip_pattern_never_clicked (net : Network) (fs : FS)
    (entries : List FeedEntry) (skip : List String) (smp : Option String)
    (i j : Nat) (e : FeedEntry) (btn : KudosButton) (p : String)
    (hi : entries[i]? = some e) (hj : e.buttons[j]? = some btn)
    (hp : p ∈ skip)
    (hmatch : pyIn (pyLower p) (pyLower (resolveOwner e e.buttons.length btn)) = true) :
    ∀ o, Event.click i j o ∉ (give_kudos net fs entries skip smp).2 := by
  intro o hc
  rw [click_give_kudos] at hc
  rcases hc with ⟨e', btn', hi', hj', ho, _, hs⟩
  have he : e' = e := by rw [hi] at hi'; exact (Option.some.inj hi').symm
  have hb : btn' = btn := by
    rw [he, hj] at hj'; exact (Option.some.inj hj').symm
  rw [he, hb] at ho
  rw [ho] at hs
  have htrue : skipMatch skip (resolveOwner e e.buttons.length btn) = true := by
    unfold skipMatch
    rw [Bool.and_eq_true]
    constructor
    · have hne : skip ≠ [] := List.ne_nil_of_mem hp
      cases skip with
      | nil => exact absurd rfl hne
      | cons a as => simp
    · rw [List.any_eq_true]
      exact ⟨p, hp, hmatch⟩
  rw [htrue] at hs
  exact absurd hs (by simp)

/-- Witness for claim C4: with skip set bob, the not-yet-acted button owned by
Bob Jones is never clicked. -/
theorem c4_witness :
    Event.click 0 0 "Bob Jones" ∉
      (give_kudos net0 [] [⟨"Bob Jones", [⟨true, "Bob Jones"⟩], []⟩] ["bob"] none).2 :=
  c4_skip_pattern_never_clicked net0 [] [⟨"Bob Jones", [⟨true, "Bob Jones"⟩], []⟩]
    ["bob"] none 0 0 ⟨"Bob Jones", [⟨true, "Bob Jones"⟩], []⟩ ⟨true, "Bob Jones"⟩
    "bob" (by decide) (by decide) (by decide) (by decide) "Bob Jones"

/-- Claim C5: for every number of expansions n, the trace of
execute_kudos_giving is the n expansion events followed by the trace of
exactly one give_kudos pass: the expansion phase has length n and consists
of expansion events only, the scan pass contains no expansion event and
opens with the scan-start event, and the whole run contains exactly one
scan-start event — so all n expansions complete strictly before any click
of the scan-and-act pass, with no interleaving. -/
theorem c5_expansions_before_scan (net : Network) (fs : FS)
    (entries : List FeedEntry) (n : Nat) (skip : List String)
    (smp : Option String) :
    (execute_kudos_giving net fs entries n skip smp).2 =
      scrollPhase n ++ (give_kudos net fs entries skip smp).2 ∧
    (scrollPhase n).length = n ∧
    (scrollPhase n).count Event.expand = n ∧
    ((give_kudos net fs entries skip smp).2).count Event.expand = 0 ∧
    ((give_kudos net fs entries skip smp).2).headD Event.expand = Event.scanStart ∧
    ((execute_kudos_giving net fs entries n skip smp).2).count Event.scanStart = 1 := by
  have hpass : ((give_kudos net fs entries skip smp).2).count Event.expand = 0 := by
    rw [List.count_eq_zero]
    intro hmem
    rcases List.mem_cons.mp hmem with h | h
    · exact absurd h (by simp)
    · exact absurd rfl (inner_giveKudosGo entries 0 fs h).1
  have hscan0 : (scrollPhase n).count Event.scanStart = 0 := by
    rw [List.count_eq_zero]
    intro hmem
    exact absurd (mem_scrollPhase n hmem) (by simp)
  have hscan1 : ((give_kudos net fs entries skip smp).2).count Event.scanStart = 1 := by
    unfold give_kudos
    rw [List.count_cons]
    have : ((giveKudosGo net skip smp 0 fs entries).2).count Event.scanStart = 0 := by
      rw [List.count_eq_zero]
      intro hmem
      exact absurd rfl (inner_giveKudosGo entries 0 fs hmem).2
    simp [this]
  refine ⟨rfl, scrollPhase_length n, scrollPhase_count_expand n, hpass, rfl, ?_⟩
  have hsplit : (execute_kudos_giving net fs entries n skip smp).2 =
      scrollPhase n ++ (give_kudos net fs entries skip smp).2 := rfl
  rw [hsplit, List.count_append, hscan0, hscan1]

/-- Claim C6: each kudos button of a multi-button feed entry resolves its owner
from its own ancestor list item (so different buttons of one entry can
have different owners); in particular, in an entry with two buttons owned
by Alice Smith and Bob Jones under the skip set bob, exactly the
Alice Smith button is clicked and the Bob Jones button is skipped
regardless of its marker state. -/
theorem c6_multi_control_owner (net : Network) (fs : FS)
    (entries : List FeedEntry) (skip : List String) (smp : Option String)
    (a b : Nat) (o : String) :
    (Event.click a b o ∈ (give_kudos net fs entries skip smp).2 →
      ∃ e btn, entries[a]? = some e ∧ e.buttons[b]? = some btn ∧
        (2 ≤ e.buttons.length → o = btn.ancestorOwner)) ∧
    (∀ bobMarker : Bool,
      ((give_kudos net0 [] [groupEntry bobMarker] ["bob"] none).2.filter isClick) =
        [Event.click 0 0 "Alice Smith"]) := by
  constructor
  · intro hc
    rw [click_give_kudos] at hc
    rcases hc with ⟨e, btn, hi, hj, ho, _, _⟩
    refine ⟨e, btn, hi, hj, fun h2 => ?_⟩
    rw [ho]
    unfold resolveOwner
    rw [if_neg (by omega)]
  · intro bobMarker
    cases bobMarker <;> decide

/-- Witness for claim C6: in the two-owner group entry the Alice Smith click is in
the trace, and the characterisation attributes it to the ancestor list
item of her button. -/
theorem c6_witness :
    Event.click 0 0 "Alice Smith" ∈
      (give_kudos net0 [] [groupEntry true] ["bob"] none).2 ∧
    ∃ e btn, [groupEntry true][0]? = some e ∧ e.buttons[0]? = some btn ∧
      (2 ≤ e.buttons.length → "Alice Smith" = btn.ancestorOwner) :=
  ⟨by decide,
   (c6_multi_control_owner net0 [] [groupEntry true] ["bob"] none 0 0
      "Alice Smith").1 (by decide)⟩

/-- Claim C2: for every configuration, the kudos phase of bot.main fails with a
TypeError at the call of execute_kudos_giving, because main passes the
keyword argument interval which the signature
(number_of_scrolls_to_end, athletes_to_skip, save_map_path) does not
accept; consequently the run emits no expansion and no kudos click. -/
theorem c2_main_interval_type_error (cfg : Config) (net : Network) (fs : FS)
    (entries : List FeedEntry) :
    main_run cfg net fs entries =
      ([], Except.error "TypeError: unexpected keyword argument interval") := rfl

/-- Claim C9: accept_cookies never propagates a failure: for every consent
state it returns normally, and when the dialog does not appear within the
timeout the outcome is exactly one informational log line (no click, no
error). -/
theorem c9_consent_never_propagates (s : ConsentState) :
    (∃ evs, accept_cookies s = Except.ok evs) ∧
    (s.bannerAppears = false →
      accept_cookies s =
        Except.ok [Event.logInfo "No cookie banner found. TimeoutError"]) := by
  rcases s with ⟨ba, ab, cr⟩
  cases ba <;> cases ab <;> cases cr <;>
    exact ⟨⟨_, rfl⟩, by intro h; first | rfl | exact absurd h (by simp)⟩

/-- Witness for claim C9: with no banner appearing, accept_cookies returns normally
with the informational log line. -/
theorem c9_witness :
    accept_cookies ⟨false, false, false⟩ =
      Except.ok [Event.logInfo "No cookie banner found. TimeoutError"] :=
  (c9_consent_never_propagates ⟨false, false, false⟩).2 rfl

/-- Claim C10: if cancellation is delivered before the k-th event of an
execute_kudos_giving run, the run performs exactly the first k events,
logs, and re-raises the cancellation (outcome cancelled, never swallowed);
no further expansion or click happens and the completed prefix is kept
as-is. -/
theorem c10_cancellation_propagates (net : Network) (fs : FS)
    (entries : List FeedEntry) (n : Nat) (skip : List String)
    (smp : Option String) (k : Nat)
    (hk : k < ((execute_kudos_giving net fs entries n skip smp).2).length) :
    execute_kudos_giving_cancellable net fs entries n skip smp (some k) =
      (((execute_kudos_giving net fs entries n skip smp).2).take k ++
        [Event.logInfo "execute_kudos_giving cancelled, cleaning up"],
       Outcome.cancelled) := by
  simp only [execute_kudos_giving_cancellable, runCancellable]
  rw [if_pos hk]

/-- Witness for claim C10: cancelling before the first event of a one-expansion run
yields only the cancellation log and the cancelled outcome. -/
theorem c10_witness :
    execute_kudos_giving_cancellable net0 [] [] 1 [] none (some 0) =
      ([Event.logInfo "execute_kudos_giving cancelled, cleaning up"],
       Outcome.cancelled) := by
  have h := c10_cancellation_propagates net0 [] [] 1 [] none 0 (by decide)
  simpa using h

/-- Claim C8: the asset archiver is a no-op (no file written, filesystem
unchanged, and no error — the function returns normally) whenever the
entry does not contain exactly one map image, or the image has no
resolvable source (missing or empty src), or the network response is not
successful. -/
theorem c8_archiver_noop (net : Network) (fs : FS) (e : FeedEntry)
    (dir : String)
    (h : e.mapImgs.length ≠ 1 ∨
         (e.mapImgs.headD ⟨none⟩).src = none ∨
         (e.mapImgs.headD ⟨none⟩).src = some "" ∨
         (∃ s, (e.mapImgs.headD ⟨none⟩).src = some s ∧ (net s).ok = false)) :
    (save_activity_map net fs e (some dir)).1 = fs ∧
    ((save_activity_map net fs e (some dir)).2).countP isFileWrite = 0 := by
  unfold save_activity_map
  repeat'
    first
    | split
    | (exact ⟨rfl, rfl⟩)
    | dsimp only
  all_goals
    first
    | exact ⟨rfl, rfl⟩
    | (exfalso
       rcases h with h | h | h | ⟨s, hs, hok⟩ <;> simp_all [String.isEmpty_iff])

/-- Witness for claim C8: an entry with zero map images leaves the filesystem
unchanged and writes nothing. -/
theorem c8_witness :
    (save_activity_map net0 [] ⟨"Jane Doe", [], []⟩ (some "out")).1 = [] ∧
    ((save_activity_map net0 [] ⟨"Jane Doe", [], []⟩ (some "out")).2).countP
      isFileWrite = 0 :=
  c8_archiver_noop net0 [] ⟨"Jane Doe", [], []⟩ "out" (Or.inl (by decide))

/-- The code's extension derivation agrees with the spec's reading (the
text after the slash and before any semicolon parameter delimiter) for
every content type with exactly one slash. -/
theorem extensionOf_split (a b : List Char) (ha : '/' ∉ a) (hb : '/' ∉ b) :
    extensionOf ⟨a ++ '/' :: b⟩ = ⟨takeUntilChar ';' b⟩ := by
  unfold extensionOf
  have hdata : (⟨a ++ '/' :: b⟩ : String).data = a ++ '/' :: b := rfl
  rw [hdata, splitOnChar_append_cons b ha, splitOnChar_of_not_mem hb]
  simp only [List.getLastD_cons, List.getLastD_nil]
  rw [headD_splitOnChar]

/-- The stem of a simple dotted file name with a non-empty extension is
the part before the dot (a non-empty extension is required: pathlib
treats a trailing dot as part of the stem, not as a suffix). -/
theorem stemOfName_split (name ext : List Char) (hname : name ≠ [])
    (hext : ext ≠ []) (h1 : '.' ∉ name) (h2 : '.' ∉ ext) :
    stemOfName (name ++ '.' :: ext) = name := by
  unfold stemOfName
  rw [splitOnChar_append_cons ext h1, splitOnChar_of_not_mem h2]
  dsimp only
  rw [if_neg (by simpa using hext), if_neg (by simp [hname])]
  simp [List.intercalate]

/-- Claim C7: the path of the archived file is the target directory, the
base filename and the derived extension; the extension is the text of the
declared content type after the slash and before any semicolon parameter
delimiter, with content type image/png when the header is absent (so png
by default); the base filename is the stem of the last path segment of
the path of the source URL (a suffix is dropped only when its dot is
interior to the name, and the params component after a semicolon in the
last segment is not part of the path), or the fixed name map when that
stem is empty. -/
theorem c7_extension_and_stem :
    (∀ (net : Network) (fs : FS) (e : FeedEntry) (dir src : String),
      pyTruthyPath (some dir) = true →
      e.mapImgs = [⟨some src⟩] →
      src.isEmpty = false →
      (net src).ok = true →
      fsExistsNonEmpty fs
        (targetPathOf dir src ((net src).contentType.getD "image/png")) = false →
      (save_activity_map net fs e (some dir)).2 =
        [Event.fetch src,
         Event.fileWrite (targetPathOf dir src ((net src).contentType.getD "image/png")),
         Event.logInfo ("Map: saved " ++
           targetPathOf dir src ((net src).contentType.getD "image/png"))] ∧
      targetPathOf dir src ((net src).contentType.getD "image/png") =
        dir ++ "/" ++ filenameOf src ++ "." ++
          extensionOf ((net src).contentType.getD "image/png")) ∧
    (∀ a b : List Char, '/' ∉ a → '/' ∉ b →
      extensionOf ⟨a ++ '/' :: b⟩ = ⟨takeUntilChar ';' b⟩) ∧
    extensionOf "image/png" = "png" ∧
    extensionOf "image/jpeg;charset=binary" = "jpeg" ∧
    extensionOf ((none : Option String).getD "image/png") = "png" ∧
    (∀ name ext : List Char, name ≠ [] → ext ≠ [] → '.' ∉ name → '.' ∉ ext →
      stemOfName (name ++ '.' :: ext) = name) ∧
    pathStem "xyz." = "xyz." ∧
    pathStem ".bashrc" = ".bashrc" ∧
    filenameOf "https://example.com/maps/xyz123.png" = "xyz123" ∧
    filenameOf "https://example.com/maps/xyz123.png;type=map" = "xyz123" ∧
    filenameOf "https://example.com" = "map" := by
  refine ⟨?_, extensionOf_split, by decide, by decide, by decide,
    stemOfName_split, by decide, by decide, by decide, by decide, by decide⟩
  intro net fs e dir src hp hm hs hok hex
  refine ⟨?_, rfl⟩
  unfold save_activity_map
  simp only [hp, Bool.not_true, Bool.false_eq_true, if_false, hm, Option.getD_some,
    List.length_singleton, List.headD_cons, ne_eq, not_true_eq_false, if_false] at *
  simp [hs, hok, hex]

/-- Witness for claim C7: archiving the demo map under content type image/png
produces the file xyz123.png in the target directory. -/
theorem c7_witness :
    (save_activity_map demoNet [] demoEntry (some "out")).2 =
      [Event.fetch mapSrc, Event.fileWrite "out/xyz123.png",
       Event.logInfo "Map: saved out/xyz123.png"] := by
  have h := (c7_extension_and_stem.1 demoNet [] demoEntry "out" mapSrc
    (by decide) (by decide) (by decide) (by decide) (by decide)).1
  rw [h]
  decide

/-- A freshly written file exists with non-zero size exactly when the
written bytes are non-empty. -/
theorem fsExistsNonEmpty_write (fs : FS) (p : String) (b : List Nat) :
    fsExistsNonEmpty (fsWrite fs p b) p = !b.isEmpty := by
  unfold fsExistsNonEmpty fsLookup fsWrite
  rw [List.find?_cons_of_pos _ (by simp)]
  rfl

/-- Counterexample to claim C1: after one archive run a non-empty file of the
derived name exists at the target path, yet a second run on the same
source reference and directory still performs one network fetch — not
zero, as the claim states (the fetch precedes the existence check because
the derived filename depends on the response's content-type header). -/
theorem c1_counterexample :
    fsExistsNonEmpty (save_activity_map demoNet [] demoEntry (some "out")).1
      "out/xyz123.png" = true ∧
    ((save_activity_map demoNet
        (save_activity_map demoNet [] demoEntry (some "out")).1
        demoEntry (some "out")).2).countP isFetch = 1 := by
  decide

/-- Amended claim C1: when a non-empty file of the derived name already exists,
archive performs no write and leaves the filesystem unchanged, but still
performs exactly one network fetch; hence two consecutive runs perform
one fetch and one write, then one fetch and zero writes (two fetches and
exactly one file in total), with the filesystem unchanged by the second
run. -/
theorem c1_amended_fetch_not_skipped (net : Network) (fs : FS)
    (e : FeedEntry) (dir src : String)
    (hp : pyTruthyPath (some dir) = true)
    (hm : e.mapImgs = [⟨some src⟩])
    (hs : src.isEmpty = false)
    (hok : (net src).ok = true) :
    (fsExistsNonEmpty fs
        (targetPathOf dir src ((net src).contentType.getD "image/png")) = true →
      (save_activity_map net fs e (some dir)).1 = fs ∧
      ((save_activity_map net fs e (some dir)).2).countP isFetch = 1 ∧
      ((save_activity_map net fs e (some dir)).2).countP isFileWrite = 0) ∧
    ((net src).body.isEmpty = false →
     fsExistsNonEmpty fs
        (targetPathOf dir src ((net src).contentType.getD "image/png")) = false →
      ((save_activity_map net fs e (some dir)).2).countP isFetch = 1 ∧
      ((save_activity_map net fs e (some dir)).2).countP isFileWrite = 1 ∧
      ((save_activity_map net (save_activity_map net fs e (some dir)).1
          e (some dir)).2).countP isFetch = 1 ∧
      ((save_activity_map net (save_activity_map net fs e (some dir)).1
          e (some dir)).2).countP isFileWrite = 0 ∧
      (save_activity_map net (save_activity_map net fs e (some dir)).1
          e (some dir)).1 =
        (save_activity_map net fs e (some dir)).1) := by
  constructor
  · intro hex
    unfold save_activity_map
    simp only [hp, Bool.not_true, Bool.false_eq_true, if_false, hm,
      Option.getD_some, List.length_singleton, List.headD_cons, ne_eq,
      not_true_eq_false] at *
    simp [hs, hok, hex, isFetch, isFileWrite]
  · intro hbody hex
    have hrun1 :
        save_activity_map net fs e (some dir) =
          (fsWrite fs (targetPathOf dir src ((net src).contentType.getD "image/png"))
             (net src).body,
           [Event.fetch src,
            Event.fileWrite (targetPathOf dir src ((net src).contentType.getD "image/png")),
            Event.logInfo ("Map: saved " ++
              targetPathOf dir src ((net src).contentType.getD "image/png"))]) := by
      unfold save_activity_map
      simp only [hp, Bool.not_true, Bool.false_eq_true, if_false, hm,
        Option.getD_some, List.length_singleton, List.headD_cons, ne_eq,
        not_true_eq_false] at *
      simp [hs, hok, hex, Bool.not_false]
    have hex2 : fsExistsNonEmpty (save_activity_map net fs e (some dir)).1
        (targetPathOf dir src ((net src).contentType.getD "image/png")) = true := by
      rw [hrun1, fsExistsNonEmpty_write, hbody]
      rfl
    have hrun2 :
        save_activity_map net (save_activity_map net fs e (some dir)).1 e (some dir) =
          ((save_activity_map net fs e (some dir)).1,
           [Event.fetch src,
            Event.logInfo ("Map: already exists " ++
              targetPathOf dir src ((net src).contentType.getD "image/png"))]) := by
      conv =>
        lhs
        rw [save_activity_map]
      simp only [hp, Bool.not_true, Bool.false_eq_true, if_false, hm,
        Option.getD_some, List.length_singleton, List.headD_cons, ne_eq,
        not_true_eq_false]
      simp [hs, hok, hex2]
    rw [hrun2, hrun1]
    simp [isFetch, isFileWrite]

/-- Witness for the amended claim C1: the two demo runs perform one fetch and one write,
then one fetch and zero writes, and the second run leaves the filesystem
unchanged. -/
theorem c1_amended_witness :
    ((save_activity_map demoNet [] demoEntry (some "out")).2).countP isFetch = 1 ∧
    ((save_activity_map demoNet [] demoEntry (some "out")).2).countP isFileWrite = 1 ∧
    ((save_activity_map demoNet
        (save_activity_map demoNet [] demoEntry (some "out")).1
        demoEntry (some "out")).2).countP isFetch = 1 ∧
    ((save_activity_map demoNet
        (save_activity_map demoNet [] demoEntry (some "out")).1
        demoEntry (some "out")).2).countP isFileWrite = 0 ∧
    (save_activity_map demoNet
        (save_activity_map demoNet [] demoEntry (some "out")).1
        demoEntry (some "out")).1 =
      (save_activity_map demoNet [] demoEntry (some "out")).1 :=
  (c1_amended_fetch_not_skipped demoNet [] demoEntry "out" mapSrc
    (by decide) (by decide) (by decide) (by decide)).2 (by decide) (by decide)

end StravaBot
